import Mathlib

/-!
# Verification of the time-scape-maker interaction kernel

A shallow embedding of the timeline widget's algorithmic kernel:
date-to-pixel geometry, the drag/resize gesture date computation, the
dependency collection operations, the arrow render guard, the task
collection coordinator (filter/sort/update) and the task drawer's form
validation, each translated from the corresponding component source
(`Timeline.tsx`, `TimelineGrid.tsx`, `TaskDrawer.tsx` and the grid
variants), together with theorems settling the specified properties.

Modelling conventions:
* Dates are integer day indices (`Date := Int`).  The application
  normalizes every date to midnight (`startOfDay`) and only ever moves
  dates by whole days (`addDays`) or compares/differences them
  (`differenceInDays`), so the day index captures the full behaviour;
  `differenceInDays a b` is `a - b` and JS `Date` comparison is integer
  comparison.
* `Math.round(x)` on a quotient `num/den` with `den > 0` is
  `⌊num/den + 1/2⌋`, embedded as integer floor division `jsRound`.
* Strings are Lean strings; `toLowerCase`/`trim`/`includes` map to
  character-list operations (`jsToLower`, `jsTrim`, `charsContain`).
  `localeCompare` is embedded as code-point lexicographic comparison
  (the two agree on the repository's ASCII task names).
* `Array.prototype.sort` is stable (ECMAScript 2019); it is embedded as
  Mathlib's stable `List.insertionSort` driven by the source comparator
  through the relation `comparator a b ≤ 0`.
-/

namespace TimeScape

/-- A calendar date, as a whole-day index (all dates in the app are
midnight-normalized and moved in whole-day steps). -/
abbrev Date := Int

/-- `date-fns` `addDays`. -/
def addDays (d : Date) (n : Int) : Date := d + n

/-- `date-fns` `differenceInDays laterDate earlierDate`: the number of
full days from the second date to the first. -/
def differenceInDays (a b : Date) : Int := a - b

/-- The spec's `daysBetween(x, y)`: days from `x` forward to `y`. -/
def daysBetween (x y : Date) : Int := differenceInDays y x

/-- Task status union from `Timeline.tsx`. -/
inductive TaskStatus
  | todo
  | inProgress
  | completed
  | overdue
deriving DecidableEq, Repr

/-- The string form of a status, as it appears in the status-filter
select values of `Timeline.tsx`. -/
def statusString : TaskStatus → String
  | .todo => "todo"
  | .inProgress => "in-progress"
  | .completed => "completed"
  | .overdue => "overdue"

/-- Task priority union from `Timeline.tsx`. -/
inductive Priority
  | low
  | medium
  | high
deriving DecidableEq, Repr

/-- The `Task` interface of `Timeline.tsx`; optional fields become
`Option`. -/
structure Task where
  id : String
  name : String
  status : TaskStatus
  priority : Priority
  assignee : Option String := none
  startDate : Date
  endDate : Date
  progress : Option Nat := none
  dependencies : Option (List String) := none
  parentId : Option String := none
  description : Option String := none
deriving DecidableEq, Repr

/-- The `ZoomLevel` union of `Timeline.tsx`. -/
inductive ZoomLevel
  | day
  | week
  | month
deriving DecidableEq, Repr

/-- `TimelineGrid.tsx`: `pixelsPerDay = zoomLevel === 'day' ? 120 :
zoomLevel === 'week' ? 60 : 40`. -/
def pixelsPerDay : ZoomLevel → Int
  | .day => 120
  | .week => 60
  | .month => 40

/-! ## Date/pixel geometry (`TaskBar`, `TimelineGrid.tsx` lines 46-49) -/

/-- `taskStartPos = differenceInDays(task.startDate, startDate) * pixelsPerDay`. -/
def taskStartPos (t : Task) (startDate : Date) (ppd : Int) : Int :=
  differenceInDays t.startDate startDate * ppd

/-- `taskEndPos = differenceInDays(task.endDate, startDate) * pixelsPerDay`. -/
def taskEndPos (t : Task) (startDate : Date) (ppd : Int) : Int :=
  differenceInDays t.endDate startDate * ppd

/-- `taskWidth = Math.max(pixelsPerDay, taskEndPos - taskStartPos + pixelsPerDay)`. -/
def taskWidth (t : Task) (startDate : Date) (ppd : Int) : Int :=
  max ppd (taskEndPos t startDate ppd - taskStartPos t startDate ppd + ppd)

/-! ## Drag/resize gesture (`TaskBar/handleMouseMove`) -/

/-- The move/resize drag modes of `dragType` (the `dependency` mode
updates only the preview line and computes no dates). -/
inductive DragType
  | move
  | resizeStart
  | resizeEnd
deriving DecidableEq, Repr

/-- The `dragStart` anchor captured on pointer-down: pointer x and the
task's dates at gesture start (the y coordinate plays no role in the
date computation). -/
structure DragStart where
  x : Int
  taskStart : Date
  taskEnd : Date
deriving DecidableEq, Repr

/-- `Math.round(num / den)` for `den > 0`: round half towards positive
infinity, i.e. `⌊num/den + 1/2⌋`, as an integer division (Euclidean
division coincides with floor division here because the denominator is
positive); `jsRound_eq_floor` below proves the characterization. -/
def jsRound (num den : Int) : Int :=
  (2 * num + den) / (2 * den)

/-- `daysDelta = Math.round(deltaX / pixelsPerDay)` with
`deltaX = e.clientX - dragStart.x`. -/
def daysDelta (clientX : Int) (dragStart : DragStart) (ppd : Int) : Int :=
  jsRound (clientX - dragStart.x) ppd

/-- The `switch (dragType)` of `handleMouseMove` computing
`(newStartDate, newEndDate)` from the anchor and a day delta. -/
def dragNewDates (dragType : DragType) (dragStart : DragStart) (delta : Int) :
    Date × Date :=
  match dragType with
  | .move =>
      (addDays dragStart.taskStart delta, addDays dragStart.taskEnd delta)
  | .resizeStart =>
      let newStartDate := addDays dragStart.taskStart delta
      (if newStartDate ≥ dragStart.taskEnd then addDays dragStart.taskEnd (-1)
       else newStartDate,
       dragStart.taskEnd)
  | .resizeEnd =>
      let newEndDate := addDays dragStart.taskEnd delta
      (dragStart.taskStart,
       if newEndDate ≤ dragStart.taskStart then addDays dragStart.taskStart 1
       else newEndDate)

/-- The task object passed to `onTaskUpdate` by `handleMouseMove`:
`{ ...task, startDate: newStartDate, endDate: newEndDate }`.  (The
source guard `newStartDate !== task.startDate || newEndDate !==
task.endDate` compares object identity and always passes, because
`addDays` returns a fresh `Date` object.) -/
def handleMouseMoveUpdate (dragType : DragType) (dragStart : DragStart)
    (clientX ppd : Int) (task : Task) : Task :=
  let nd := dragNewDates dragType dragStart (daysDelta clientX dragStart ppd)
  { task with startDate := nd.1, endDate := nd.2 }

/-- The gesture date computation as worded by the spec: candidate dates
`anchor ± daysDelta` per mode, with resize-start clamped to `end - 1
day` when the candidate start is `≥` the end, and resize-end clamped to
`start + 1 day` when the candidate end is `≤` the start. -/
def specDragDates (mode : DragType) (anchor : DragStart) (pointerX ppd : Int) :
    Date × Date :=
  let d := jsRound (pointerX - anchor.x) ppd
  match mode with
  | .move => (anchor.taskStart + d, anchor.taskEnd + d)
  | .resizeStart =>
      let candidate := anchor.taskStart + d
      (if candidate ≥ anchor.taskEnd then anchor.taskEnd - 1 else candidate,
       anchor.taskEnd)
  | .resizeEnd =>
      let candidate := anchor.taskEnd + d
      (anchor.taskStart,
       if candidate ≤ anchor.taskStart then anchor.taskStart + 1 else candidate)

/-- `jsRound` really is `Math.round` of the quotient: for `den > 0`,
`jsRound num den = ⌊num/den + 1/2⌋` over the rationals. -/
theorem jsRound_eq_floor (num den : Int) (hden : 0 < den) :
    jsRound num den = ⌊(num : ℚ) / (den : ℚ) + 1 / 2⌋ := by
  have hb : (0 : Int) < 2 * den := by omega
  have hbne : (2 * den : Int) ≠ 0 := by omega
  have hmod1 : 0 ≤ (2 * num + den) % (2 * den) := Int.emod_nonneg _ hbne
  have hmod2 : (2 * num + den) % (2 * den) < 2 * den := Int.emod_lt_of_pos _ hb
  have hdiv : 2 * den * ((2 * num + den) / (2 * den)) + (2 * num + den) % (2 * den)
      = 2 * num + den := Int.ediv_add_emod _ _
  have hq : (num : ℚ) / (den : ℚ) + 1 / 2
      = ((2 * num + den : Int) : ℚ) / ((2 * den : Int) : ℚ) := by
    have hd : (den : ℚ) ≠ 0 := Int.cast_ne_zero.mpr (by omega)
    push_cast
    field_simp
    ring
  rw [hq]
  have hbQ : (0 : ℚ) < ((2 * den : Int) : ℚ) := by exact_mod_cast hb
  symm
  rw [Int.floor_eq_iff]
  constructor
  · rw [le_div_iff₀ hbQ]
    have h1 : (jsRound num den) * (2 * den) ≤ 2 * num + den := by
      unfold jsRound
      rw [mul_comm]
      linarith
    exact_mod_cast h1
  · rw [div_lt_iff₀ hbQ]
    have h2 : 2 * num + den < (jsRound num den + 1) * (2 * den) := by
      unfold jsRound
      have hexp : ((2 * num + den) / (2 * den) + 1) * (2 * den)
          = 2 * den * ((2 * num + den) / (2 * den)) + 2 * den := by ring
      rw [hexp]
      linarith
    exact_mod_cast h2

/-- C1: for every move/resize gesture the computed dates agree with the
spec's description (`daysDelta = round((pointerX - anchorX)/ppd)`, move
shifts both dates by `daysDelta`, resize-start clamps a candidate start
`≥ end` to `end - 1`, resize-end clamps a candidate end `≤ start` to
`start + 1`); in particular a task spanning day 10 to day 15 resized at
the start by +10 days ends up starting at day 14. -/
theorem drag_dates_match_spec (mode : DragType) (anchor : DragStart)
    (pointerX ppd : Int) :
    dragNewDates mode anchor (daysDelta pointerX anchor ppd) =
      specDragDates mode anchor pointerX ppd
    ∧ (0 < ppd →
        daysDelta pointerX anchor ppd =
          ⌊((pointerX - anchor.x : Int) : ℚ) / (ppd : ℚ) + 1 / 2⌋)
    ∧ (dragNewDates .resizeStart ⟨0, 10, 15⟩ 10).1 = 14 := by
  refine ⟨?_, ?_, rfl⟩
  · cases mode <;>
      simp [dragNewDates, specDragDates, daysDelta, addDays, sub_eq_add_neg]
  · intro hppd
    exact jsRound_eq_floor _ _ hppd

/-- Witness for C1 at pointer delta `+25` over `pixelsPerDay = 10`
(so `daysDelta = round 2.5 = 3`) in resize-end mode on a task `[4, 6]`. -/
theorem drag_dates_match_spec_witness :
    dragNewDates .resizeEnd ⟨0, 4, 6⟩ (daysDelta 25 ⟨0, 4, 6⟩ 10) =
      specDragDates .resizeEnd ⟨0, 4, 6⟩ 25 10
    ∧ daysDelta 25 ⟨0, 4, 6⟩ 10 = ⌊((25 - 0 : Int) : ℚ) / (10 : ℚ) + 1 / 2⌋ := by
  have h := drag_dates_match_spec .resizeEnd ⟨0, 4, 6⟩ 25 10
  exact ⟨h.1, h.2.1 (by decide)⟩

/-- C5: the geometry mapper computes
`startOffsetPixels = daysBetween(windowStart, start) * ppd` and
`widthPixels = max(ppd, daysBetween(start, end) * ppd + ppd)`; the width
is at least one day of pixels at every zoom level, and the start offset
is strictly monotone in `daysBetween(windowStart, start)`. -/
theorem geometry_formulas (ws : Date) (t : Task) (z : ZoomLevel) :
    taskStartPos t ws (pixelsPerDay z) =
      daysBetween ws t.startDate * pixelsPerDay z
    ∧ taskWidth t ws (pixelsPerDay z) =
        max (pixelsPerDay z)
          (daysBetween t.startDate t.endDate * pixelsPerDay z + pixelsPerDay z)
    ∧ pixelsPerDay z ≤ taskWidth t ws (pixelsPerDay z)
    ∧ ∀ t₂ : Task,
        daysBetween ws t.startDate < daysBetween ws t₂.startDate →
        taskStartPos t ws (pixelsPerDay z) < taskStartPos t₂ ws (pixelsPerDay z) := by
  have hppd : 0 < pixelsPerDay z := by cases z <;> decide
  refine ⟨rfl, ?_, ?_, ?_⟩
  · unfold taskWidth taskEndPos taskStartPos daysBetween differenceInDays
    congr 1
    ring
  · exact le_max_left _ _
  · intro t₂ hlt
    unfold taskStartPos
    have : differenceInDays t.startDate ws < differenceInDays t₂.startDate ws := hlt
    exact mul_lt_mul_of_pos_right this hppd

/-- Witness for C5 at `windowStart = 0`, a one-day task `[3, 3]` at
month zoom, and a second task starting later. -/
theorem geometry_formulas_witness :
    pixelsPerDay .month ≤
      taskWidth ⟨"t1", "a", .todo, .low, none, 3, 3, none, none, none, none⟩ 0
        (pixelsPerDay .month)
    ∧ taskStartPos ⟨"t1", "a", .todo, .low, none, 3, 3, none, none, none, none⟩ 0
        (pixelsPerDay .month) <
      taskStartPos ⟨"t2", "b", .todo, .low, none, 5, 9, none, none, none, none⟩ 0
        (pixelsPerDay .month) := by
  have h := geometry_formulas 0
    ⟨"t1", "a", .todo, .low, none, 3, 3, none, none, none, none⟩ .month
  exact ⟨h.2.2.1,
    h.2.2.2 ⟨"t2", "b", .todo, .low, none, 5, 9, none, none, none, none⟩ (by decide)⟩

/-! ## Dependency collection (`TimelineGrid` variants) -/

/-- The `Dependency` interface of the grid components. -/
structure Dependency where
  id : String
  fromTaskId : String
  toTaskId : String
deriving DecidableEq, Repr

/-- `handleDependencyCreate` of `src/src/components/TimelineGrid.tsx`
(lines 403-415): builds the edge id `` `${fromTaskId}-${toTaskId}` ``
and appends unconditionally (no duplicate or self-loop check). -/
def handleDependencyCreate (fromTaskId toTaskId : String)
    (dependencies : List Dependency) : List Dependency :=
  dependencies ++
    [{ id := fromTaskId ++ "-" ++ toTaskId,
       fromTaskId := fromTaskId, toTaskId := toTaskId }]

/-- `handleDependencyCreate` of the feature-complete grid variant
(`src/unnamed/part_000` lines 427-456): returns the collection
unchanged when an edge with the same ordered `(from, to)` pair already
exists, otherwise appends a new edge with id
`` `${fromTaskId}-to-${toTaskId}` ``.  (It performs no
`fromTaskId == toTaskId` check either.) -/
def handleDependencyCreateChecked (fromTaskId toTaskId : String)
    (dependencies : List Dependency) : List Dependency :=
  match dependencies.find? (fun dep =>
      dep.fromTaskId == fromTaskId && dep.toTaskId == toTaskId) with
  | some _ => dependencies
  | none =>
      dependencies ++
        [{ id := fromTaskId ++ "-to-" ++ toTaskId,
           fromTaskId := fromTaskId, toTaskId := toTaskId }]

/-- The hit-testing loop of `TaskBar/handleMouseUp`
(`TimelineGrid.tsx` lines 130-137): each element under the release
point is abstracted to the `data-task-id` of its nearest tagged
ancestor (`none` when `closest` finds nothing); the loop takes the
first hit and breaks. -/
def findTaskElement (elements : List (Option String)) : Option String :=
  match elements with
  | [] => none
  | e :: rest =>
      match e with
      | some taskId => some taskId
      | none => findTaskElement rest

/-- The dependency branch of `TaskBar/handleMouseUp`
(`TimelineGrid.tsx` lines 123-147): if a task element is found at the
release point and its id differs from the origin task's id, request
dependency creation origin → target; otherwise do nothing. -/
def handleMouseUpDependency (taskId : String) (elements : List (Option String))
    (dependencies : List Dependency) : List Dependency :=
  match findTaskElement elements with
  | some toTaskId =>
      if toTaskId ≠ taskId then handleDependencyCreate taskId toTaskId dependencies
      else dependencies
  | none => dependencies

/-! ## Dependency arrow rendering (`TimelineGrid.tsx` lines 565-615) -/

/-- The geometry computed for one rendered dependency arrow (the SVG
path and its debug circles are pointwise functions of these four
values). -/
structure Arrow where
  startX : Int
  endX : Int
  fromY : Int
  toY : Int
deriving DecidableEq, Repr

/-- The body of `dependencies.map` in the arrow-rendering SVG: look up
both endpoint tasks; if either is missing return `null` (skip),
otherwise compute the arrow geometry from the task positions. -/
def renderArrow (tasks : List Task) (startDate : Date) (ppd : Int)
    (dependency : Dependency) : Option Arrow :=
  match tasks.find? (fun t => t.id == dependency.fromTaskId),
        tasks.find? (fun t => t.id == dependency.toTaskId) with
  | some fromTask, some toTask =>
      let fromIndex : Int := (tasks.findIdx (fun t => t.id == dependency.fromTaskId) : Nat)
      let toIndex : Int := (tasks.findIdx (fun t => t.id == dependency.toTaskId) : Nat)
      some { startX := differenceInDays fromTask.endDate startDate * ppd + ppd,
             endX := differenceInDays toTask.startDate startDate * ppd,
             fromY := fromIndex * 48 + 24,
             toY := toIndex * 48 + 24 }
  | _, _ => none

/-- The arrow-rendering pass over the whole dependency collection
(skipped edges produce no output; the collection itself is not
modified, the pass is a pure read). -/
def renderDependencyArrows (tasks : List Task) (startDate : Date) (ppd : Int)
    (dependencies : List Dependency) : List Arrow :=
  dependencies.filterMap (renderArrow tasks startDate ppd)

/-- C2 counterexample: in `src/src/components/TimelineGrid.tsx`,
`createDependency("a","b")` on a collection that already holds the
ordered pair `("a","b")` is not a no-op — it appends a second edge. -/
theorem dependencyCreate_duplicate_not_noop :
    handleDependencyCreate "a" "b"
        [{ id := "a-b", fromTaskId := "a", toTaskId := "b" }] ≠
      [{ id := "a-b", fromTaskId := "a", toTaskId := "b" }] := by
  decide

/-- C2 (amended): in the feature-complete grid variant
(`src/unnamed/part_000`), creating an ordered pair that is not yet
present appends exactly one edge with the deterministic id
`from-to-to`, and repeating the same creation is a no-op, so exactly
one `(A,B)` edge remains. -/
theorem dependencyCreateChecked_dedupes (A B : String) (deps : List Dependency)
    (h : ∀ d ∈ deps, ¬(d.fromTaskId = A ∧ d.toTaskId = B)) :
    handleDependencyCreateChecked A B (handleDependencyCreateChecked A B deps)
      = handleDependencyCreateChecked A B deps
    ∧ (handleDependencyCreateChecked A B deps).filter
        (fun d => d.fromTaskId == A && d.toTaskId == B)
      = [{ id := A ++ "-to-" ++ B, fromTaskId := A, toTaskId := B }] := by
  have hfind : deps.find? (fun dep =>
      dep.fromTaskId == A && dep.toTaskId == B) = none := by
    rw [List.find?_eq_none]
    intro x hx
    simp only [Bool.and_eq_true, beq_iff_eq, not_and]
    intro h1 h2
    exact h x hx ⟨h1, h2⟩
  have hfirst : handleDependencyCreateChecked A B deps =
      deps ++ [{ id := A ++ "-to-" ++ B, fromTaskId := A, toTaskId := B }] := by
    unfold handleDependencyCreateChecked
    rw [hfind]
  constructor
  · rw [hfirst]
    unfold handleDependencyCreateChecked
    rw [List.find?_append, hfind]
    simp
  · rw [hfirst, List.filter_append]
    have hdeps : deps.filter (fun d => d.fromTaskId == A && d.toTaskId == B) = [] := by
      rw [List.filter_eq_nil_iff]
      intro x hx
      simp only [Bool.and_eq_true, beq_iff_eq, not_and]
      intro h1 h2
      exact h x hx ⟨h1, h2⟩
    rw [hdeps]
    simp

/-- Witness for the amended C2 on the empty collection. -/
theorem dependencyCreateChecked_dedupes_witness :
    handleDependencyCreateChecked "a" "b" (handleDependencyCreateChecked "a" "b" [])
      = handleDependencyCreateChecked "a" "b" []
    ∧ (handleDependencyCreateChecked "a" "b" []).filter
        (fun d => d.fromTaskId == "a" && d.toTaskId == "b")
      = [{ id := "a-to-b", fromTaskId := "a", toTaskId := "b" }] :=
  dependencyCreateChecked_dedupes "a" "b" [] (by simp)

/-- C3 counterexample: `createDependency(A, A)` itself is not rejected —
on the empty collection it appends a self-loop edge, so the collection
does not stay free of edges with `fromTaskId = toTaskId`. -/
theorem dependencyCreate_self_not_rejected :
    handleDependencyCreate "a" "a" []
      = [{ id := "a-a", fromTaskId := "a", toTaskId := "a" }]
    ∧ (handleDependencyCreate "a" "a" []).length ≠ 0
    ∧ handleDependencyCreateChecked "a" "a" []
      = [{ id := "a-to-a", fromTaskId := "a", toTaskId := "a" }] := by
  decide

/-- C3 (amended): the self-loop rejection lives in the gesture's
mouse-up hit test, not in `createDependency`: releasing a
dependency-link drag over the origin task (every element under the
pointer resolves to the origin's id or to no task) leaves the
collection unchanged, and the mouse-up pipeline never adds an edge
whose `fromTaskId` equals its `toTaskId`. -/
theorem mouseUp_no_self_dependency (taskId : String)
    (elements : List (Option String)) (deps : List Dependency)
    (h : ∀ d ∈ deps, d.fromTaskId ≠ d.toTaskId) :
    ((∀ e ∈ elements, e = some taskId ∨ e = none) →
        handleMouseUpDependency taskId elements deps = deps)
    ∧ ∀ d ∈ handleMouseUpDependency taskId elements deps,
        d.fromTaskId ≠ d.toTaskId := by
  constructor
  · intro hall
    have hfind : findTaskElement elements = none ∨
        findTaskElement elements = some taskId := by
      induction elements with
      | nil => exact Or.inl rfl
      | cons e rest ih =>
          rcases hall e (by simp) with he | he
          · subst he
            exact Or.inr rfl
          · subst he
            exact ih (fun x hx => hall x (by simp [hx]))
    unfold handleMouseUpDependency
    rcases hfind with hf | hf <;> rw [hf]
    simp
  · intro d hd
    unfold handleMouseUpDependency at hd
    rcases hcase : findTaskElement elements with _ | toId <;> rw [hcase] at hd
    · exact h d hd
    · have hd' : d ∈ (if toId ≠ taskId then
          handleDependencyCreate taskId toId deps else deps) := hd
      by_cases hne : toId ≠ taskId
      · rw [if_pos hne] at hd'
        unfold handleDependencyCreate at hd'
        rcases List.mem_append.mp hd' with hin | hin
        · exact h d hin
        · simp only [List.mem_singleton] at hin
          subst hin
          simpa using fun hh => hne hh.symm
      · rw [if_neg hne] at hd'
        exact h d hd'

/-- Witness for the amended C3: a drag from task `"a"` released over
`"a"` itself (hit-test sees `"a"` and an untagged element) changes
nothing, and the result holds no self-loop. -/
theorem mouseUp_no_self_dependency_witness :
    handleMouseUpDependency "a" [some "a", none]
        [{ id := "a-to-b", fromTaskId := "a", toTaskId := "b" }]
      = [{ id := "a-to-b", fromTaskId := "a", toTaskId := "b" }]
    ∧ ∀ d ∈ handleMouseUpDependency "a" [some "a", none]
        [{ id := "a-to-b", fromTaskId := "a", toTaskId := "b" }],
        d.fromTaskId ≠ d.toTaskId := by
  have h := mouseUp_no_self_dependency "a" [some "a", none]
    [{ id := "a-to-b", fromTaskId := "a", toTaskId := "b" }]
    (by decide)
  exact ⟨h.1 (by decide), h.2⟩

/-- C8: a dependency edge with a missing endpoint task is skipped by
the arrow-rendering pass — it produces no arrow, and removing it from
the collection would not change the rendered output, so edges with both
endpoints present are unaffected by its presence.  (Rendering is a pure
read: the dependency collection itself is not modified.) -/
theorem dangling_dependency_skipped (tasks : List Task) (ws : Date) (ppd : Int)
    (pre post : List Dependency) (d : Dependency)
    (h : tasks.find? (fun t => t.id == d.fromTaskId) = none ∨
         tasks.find? (fun t => t.id == d.toTaskId) = none) :
    renderArrow tasks ws ppd d = none
    ∧ renderDependencyArrows tasks ws ppd (pre ++ d :: post)
        = renderDependencyArrows tasks ws ppd (pre ++ post) := by
  have hnone : renderArrow tasks ws ppd d = none := by
    unfold renderArrow
    rcases h with h | h
    · rw [h]
    · rw [h]
      cases tasks.find? (fun t => t.id == d.fromTaskId) <;> rfl
  refine ⟨hnone, ?_⟩
  unfold renderDependencyArrows
  rw [List.filterMap_append, List.filterMap_append, List.filterMap_cons, hnone]

/-- Witness for C8: one task `"1"`, an edge to the deleted task `"2"`
between two live self-edges on `"1"`. -/
theorem dangling_dependency_skipped_witness :
    renderArrow [(⟨"1", "t", .todo, .low, none, 0, 1, none, none, none, none⟩ : Task)]
        0 40 { id := "1-2", fromTaskId := "1", toTaskId := "2" } = none
    ∧ renderDependencyArrows
        [(⟨"1", "t", .todo, .low, none, 0, 1, none, none, none, none⟩ : Task)] 0 40
        ([{ id := "1-1", fromTaskId := "1", toTaskId := "1" }] ++
          { id := "1-2", fromTaskId := "1", toTaskId := "2" } ::
            [{ id := "1-1b", fromTaskId := "1", toTaskId := "1" }])
      = renderDependencyArrows
          [(⟨"1", "t", .todo, .low, none, 0, 1, none, none, none, none⟩ : Task)] 0 40
          ([{ id := "1-1", fromTaskId := "1", toTaskId := "1" }] ++
            [{ id := "1-1b", fromTaskId := "1", toTaskId := "1" }]) :=
  dangling_dependency_skipped _ 0 40 _ _ _ (Or.inr (by decide))

/-! ## The task collection coordinator (`Timeline.tsx`) -/

/-- `Timeline/handleTaskUpdate` (lines 165-185):
`prev.map(task => task.id === updatedTask.id ? updatedTask : task)`. -/
def handleTaskUpdate (updatedTask : Task) (tasks : List Task) : List Task :=
  tasks.map (fun task => if task.id == updatedTask.id then updatedTask else task)

/-- C9: the coordinator's update keeps the collection's length and
order, rewrites position `i` to the update exactly when the task there
has the matching id (leaving every other task untouched), and is a
no-op when no task has the id. -/
theorem taskUpdate_replaces_matching_id (u : Task) (l : List Task) :
    (handleTaskUpdate u l).length = l.length
    ∧ (∀ i : Nat, (handleTaskUpdate u l)[i]? =
        (l[i]?).map (fun t => if t.id == u.id then u else t))
    ∧ ((∀ t ∈ l, t.id ≠ u.id) → handleTaskUpdate u l = l) := by
  refine ⟨List.length_map _ _, ?_, ?_⟩
  · intro i
    simp [handleTaskUpdate, List.getElem?_map]
  · intro h
    unfold handleTaskUpdate
    induction l with
    | nil => rfl
    | cons a rest ih =>
        simp only [List.map_cons]
        rw [if_neg (by simpa using h a (by simp)),
          ih (fun t ht => h t (List.mem_cons_of_mem a ht))]

/-- Witness for C9 on a two-task collection where the update id matches
neither element. -/
theorem taskUpdate_replaces_matching_id_witness :
    handleTaskUpdate ⟨"9", "u", .todo, .low, none, 0, 1, none, none, none, none⟩
        [⟨"1", "a", .todo, .low, none, 0, 1, none, none, none, none⟩,
         ⟨"2", "b", .completed, .high, none, 2, 3, none, none, none, none⟩]
      = [⟨"1", "a", .todo, .low, none, 0, 1, none, none, none, none⟩,
         ⟨"2", "b", .completed, .high, none, 2, 3, none, none, none, none⟩] := by
  have h := taskUpdate_replaces_matching_id
    ⟨"9", "u", .todo, .low, none, 0, 1, none, none, none, none⟩
    [⟨"1", "a", .todo, .low, none, 0, 1, none, none, none, none⟩,
     ⟨"2", "b", .completed, .high, none, 2, 3, none, none, none, none⟩]
  exact h.2.2 (by decide)

/-- C10: the task object a move/resize gesture passes to `onTaskUpdate`
agrees with the gesture's task on every field except the two dates; a
resize-start gesture keeps the end date (it always emits the anchor's
end date, which is the task's end date captured at pointer-down), and a
resize-end gesture symmetrically keeps the start date. -/
theorem drag_update_frame (mode : DragType) (anchor : DragStart)
    (clientX ppd : Int) (task : Task) :
    (handleMouseMoveUpdate mode anchor clientX ppd task).id = task.id
    ∧ (handleMouseMoveUpdate mode anchor clientX ppd task).name = task.name
    ∧ (handleMouseMoveUpdate mode anchor clientX ppd task).status = task.status
    ∧ (handleMouseMoveUpdate mode anchor clientX ppd task).priority = task.priority
    ∧ (handleMouseMoveUpdate mode anchor clientX ppd task).assignee = task.assignee
    ∧ (handleMouseMoveUpdate mode anchor clientX ppd task).progress = task.progress
    ∧ (handleMouseMoveUpdate mode anchor clientX ppd task).dependencies
        = task.dependencies
    ∧ (handleMouseMoveUpdate mode anchor clientX ppd task).parentId = task.parentId
    ∧ (handleMouseMoveUpdate mode anchor clientX ppd task).description
        = task.description
    ∧ (mode = .resizeStart → task.endDate = anchor.taskEnd →
        (handleMouseMoveUpdate mode anchor clientX ppd task).endDate = task.endDate)
    ∧ (mode = .resizeEnd → task.startDate = anchor.taskStart →
        (handleMouseMoveUpdate mode anchor clientX ppd task).startDate
          = task.startDate) := by
  refine ⟨rfl, rfl, rfl, rfl, rfl, rfl, rfl, rfl, rfl, ?_, ?_⟩
  · rintro rfl he
    show anchor.taskEnd = task.endDate
    exact he.symm
  · rintro rfl hs
    show anchor.taskStart = task.startDate
    exact hs.symm

/-- Witness for C10: a resize-start gesture on a task `[2, 9]` emits a
task with the end date unchanged and all non-date fields preserved. -/
theorem drag_update_frame_witness :
    (handleMouseMoveUpdate .resizeStart ⟨0, 2, 9⟩ 100 10
        ⟨"1", "a", .todo, .low, none, 2, 9, none, none, none, none⟩).endDate
      = (9 : Date)
    ∧ (handleMouseMoveUpdate .resizeStart ⟨0, 2, 9⟩ 100 10
        ⟨"1", "a", .todo, .low, none, 2, 9, none, none, none, none⟩).name = "a" := by
  have h := drag_update_frame .resizeStart ⟨0, 2, 9⟩ 100 10
    ⟨"1", "a", .todo, .low, none, 2, 9, none, none, none, none⟩
  exact ⟨h.2.2.2.2.2.2.2.2.2.1 rfl rfl, h.2.1⟩

/-! ## Filtering and sorting (`Timeline/filteredTasks`, lines 138-163) -/

/-- JS `String.prototype.includes` as a substring test on character
lists: the needle is a prefix of some suffix of the haystack. -/
def charsContain (haystack needle : List Char) : Bool :=
  needle.isPrefixOf haystack ||
    match haystack with
    | [] => false
    | _ :: rest => charsContain rest needle

/-- JS `toLowerCase`, as a character-wise lowering of the underlying
character list. -/
def jsToLower (s : String) : String := String.mk (s.data.map Char.toLower)

/-- `task.name.toLowerCase().includes(searchQuery.toLowerCase())`. -/
def matchesSearch (searchQuery : String) (t : Task) : Bool :=
  charsContain (jsToLower t.name).toList (jsToLower searchQuery).toList

/-- `statusFilter === 'all' || task.status === statusFilter`. -/
def matchesStatus (statusFilter : String) (t : Task) : Bool :=
  statusFilter == "all" || statusString t.status == statusFilter

/-- The filter step of `filteredTasks`. -/
def filterTasks (searchQuery statusFilter : String) (tasks : List Task) :
    List Task :=
  tasks.filter (fun t => matchesSearch searchQuery t && matchesStatus statusFilter t)

/-- `a.name.localeCompare(b.name)`, embedded as code-point
lexicographic comparison (agrees with the locale order on the
repository's ASCII names). -/
def localeCompare (a b : String) : Int :=
  if a < b then -1 else if b < a then 1 else 0

/-- `priorityOrder = { high: 3, medium: 2, low: 1 }`. -/
def priorityOrder : Priority → Int
  | .high => 3
  | .medium => 2
  | .low => 1

/-- The comparator switch of `filteredTasks` (`getTime` differences are
a positive multiple of the day-model differences, preserving the
comparator's sign). -/
def taskCompare (sortBy : String) (a b : Task) : Int :=
  match sortBy with
  | "startDate" => a.startDate - b.startDate
  | "endDate" => a.endDate - b.endDate
  | "name" => localeCompare a.name b.name
  | "priority" => priorityOrder b.priority - priorityOrder a.priority
  | _ => 0

/-- `filtered.sort(comparator)`: `Array.prototype.sort` is stable
(ECMAScript 2019), embedded as Mathlib's stable insertion sort ordered
by `comparator a b ≤ 0`. -/
def jsSort (sortBy : String) (tasks : List Task) : List Task :=
  List.insertionSort (fun a b => taskCompare sortBy a b ≤ 0) tasks

/-- The whole `filteredTasks` memo: filter, then sort. -/
def filteredTasks (searchQuery statusFilter sortBy : String)
    (tasks : List Task) : List Task :=
  jsSort sortBy (filterTasks searchQuery statusFilter tasks)

theorem taskCompare_startDate (a b : Task) :
    taskCompare "startDate" a b = a.startDate - b.startDate := rfl

theorem taskCompare_endDate (a b : Task) :
    taskCompare "endDate" a b = a.endDate - b.endDate := rfl

theorem taskCompare_name (a b : Task) :
    taskCompare "name" a b = localeCompare a.name b.name := rfl

theorem taskCompare_priority (a b : Task) :
    taskCompare "priority" a b
      = priorityOrder b.priority - priorityOrder a.priority := rfl

theorem localeCompare_nonpos {a b : String} :
    localeCompare a b ≤ 0 ↔ a ≤ b := by
  unfold localeCompare
  split_ifs with h1 h2
  · simp [le_of_lt h1]
  · constructor
    · intro h
      omega
    · intro h
      exact absurd h2 (not_lt_of_le h)
  · have : a = b := le_antisymm (le_of_not_lt h2) (le_of_not_lt h1)
    simp [this]

/-- Stability of `orderedInsert` for a predicate satisfied by the
inserted element: every element the insertion walks past compares
strictly before it, so none of them satisfies the predicate. -/
theorem filter_orderedInsert_pos {α : Type} (cmp : α → α → Int)
    (p : α → Bool) (x : α) (hx : p x = true)
    (hpass : ∀ y, 0 < cmp x y → p y = false) :
    ∀ l : List α,
      (l.orderedInsert (fun a b => cmp a b ≤ 0) x).filter p = x :: l.filter p
  | [] => by simp [List.orderedInsert, hx]
  | y :: ys => by
      by_cases hle : cmp x y ≤ 0
      · simp [List.orderedInsert, hle, hx]
      · have hpy : p y = false := hpass y (by omega)
        simp [List.orderedInsert, hle, hpy,
          filter_orderedInsert_pos cmp p x hx hpass ys]

/-- Stability of `orderedInsert` for a predicate the inserted element
fails: the filtered view is untouched. -/
theorem filter_orderedInsert_neg {α : Type} (cmp : α → α → Int)
    (p : α → Bool) (x : α) (hx : p x = false) :
    ∀ l : List α,
      (l.orderedInsert (fun a b => cmp a b ≤ 0) x).filter p = l.filter p
  | [] => by simp [List.orderedInsert, hx]
  | y :: ys => by
      by_cases hle : cmp x y ≤ 0
      · simp [List.orderedInsert, hle, hx]
      · simp [List.orderedInsert, hle, List.filter_cons,
          filter_orderedInsert_neg cmp p x hx ys]

/-- Stability of the embedded sort: when all elements satisfying `p`
are comparator-equivalent (the comparator never strictly separates two
of them), sorting commutes with filtering by `p`, i.e. the relative
order of the `p`-elements is exactly their input order. -/
theorem filter_insertionSort {α : Type} (cmp : α → α → Int) (p : α → Bool)
    (hkey : ∀ x y, p x = true → p y = true → cmp x y ≤ 0) :
    ∀ l : List α,
      (List.insertionSort (fun a b => cmp a b ≤ 0) l).filter p = l.filter p
  | [] => rfl
  | x :: xs => by
      cases hpx : p x
      · rw [List.insertionSort, filter_orderedInsert_neg cmp p x hpx,
          filter_insertionSort cmp p hkey xs]
        simp [List.filter_cons, hpx]
      · have hpass : ∀ y, 0 < cmp x y → p y = false := by
          intro y hy
          cases hpy : p y
          · rfl
          · exact absurd (hkey x y hpx hpy) (by omega)
        rw [List.insertionSort, filter_orderedInsert_pos cmp p x hpx hpass,
          filter_insertionSort cmp p hkey xs]
        simp [List.filter_cons, hpx]

/-- C7: the sort is stable for every sort key — filtering the sorted
output by any fixed key value returns those tasks in their input
order — and for the priority key the output ranks descend using
high = 3 > medium = 2 > low = 1. -/
theorem sort_is_stable (l : List Task) :
    (∀ v : Int, (jsSort "startDate" l).filter (fun t => t.startDate == v)
        = l.filter (fun t => t.startDate == v))
    ∧ (∀ v : Int, (jsSort "endDate" l).filter (fun t => t.endDate == v)
        = l.filter (fun t => t.endDate == v))
    ∧ (∀ v : String, (jsSort "name" l).filter (fun t => t.name == v)
        = l.filter (fun t => t.name == v))
    ∧ (∀ v : Priority, (jsSort "priority" l).filter (fun t => t.priority == v)
        = l.filter (fun t => t.priority == v))
    ∧ (jsSort "priority" l).Pairwise
        (fun a b => priorityOrder b.priority ≤ priorityOrder a.priority) := by
  refine ⟨?_, ?_, ?_, ?_, ?_⟩
  · intro v
    exact filter_insertionSort _ _
      (fun x y hx hy => by
        simp only [beq_iff_eq] at hx hy
        rw [taskCompare_startDate, hx, hy]
        omega) l
  · intro v
    exact filter_insertionSort _ _
      (fun x y hx hy => by
        simp only [beq_iff_eq] at hx hy
        rw [taskCompare_endDate, hx, hy]
        omega) l
  · intro v
    exact filter_insertionSort _ _
      (fun x y hx hy => by
        simp only [beq_iff_eq] at hx hy
        rw [taskCompare_name, hx, hy]
        exact localeCompare_nonpos.mpr le_rfl) l
  · intro v
    exact filter_insertionSort _ _
      (fun x y hx hy => by
        simp only [beq_iff_eq] at hx hy
        rw [taskCompare_priority, hx, hy]
        omega) l
  · haveI htot : IsTotal Task (fun a b => taskCompare "priority" a b ≤ 0) :=
      ⟨fun a b => by
        rw [taskCompare_priority, taskCompare_priority]
        omega⟩
    haveI htrans : IsTrans Task (fun a b => taskCompare "priority" a b ≤ 0) :=
      ⟨fun a b c hab hbc => by
        rw [taskCompare_priority] at hab hbc ⊢
        omega⟩
    have h := List.sorted_insertionSort
      (fun a b => taskCompare "priority" a b ≤ 0) l
    exact h.imp (fun {a b} hab => by
      rw [taskCompare_priority] at hab
      omega)

/-- A status whose string form is `"completed"` is the completed
status. -/
theorem statusString_completed {st : TaskStatus}
    (h : statusString st = "completed") : st = .completed := by
  cases st <;> revert h <;> decide

/-- C6: filtering by status `"completed"` (with any search text) and
sorting by name yields only completed tasks matching the search, with
names non-decreasing; in general the filter keeps exactly the tasks
whose lower-cased name contains the lower-cased search text and whose
status matches the filter (or the filter is `"all"`). -/
theorem filter_sort_completed (l : List Task) (q : String) :
    (∀ t ∈ filteredTasks q "completed" "name" l,
        t.status = .completed ∧ matchesSearch q t = true)
    ∧ (filteredTasks q "completed" "name" l).Pairwise
        (fun a b => a.name ≤ b.name)
    ∧ (∀ (statusFilter : String) (t : Task),
        t ∈ filterTasks q statusFilter l ↔
          t ∈ l ∧ matchesSearch q t = true ∧
            (statusFilter = "all" ∨ statusString t.status = statusFilter)) := by
  refine ⟨?_, ?_, ?_⟩
  · intro t ht
    unfold filteredTasks jsSort at ht
    rw [List.mem_insertionSort] at ht
    unfold filterTasks at ht
    rw [List.mem_filter] at ht
    obtain ⟨-, hcond⟩ := ht
    simp only [matchesStatus, Bool.and_eq_true, Bool.or_eq_true,
      beq_iff_eq] at hcond
    obtain ⟨hsearch, hstatus⟩ := hcond
    rcases hstatus with hall | hst
    · exact absurd hall (by decide)
    · exact ⟨statusString_completed hst, hsearch⟩
  · haveI htot : IsTotal Task (fun a b => taskCompare "name" a b ≤ 0) :=
      ⟨fun a b => by
        rw [taskCompare_name, taskCompare_name, localeCompare_nonpos,
          localeCompare_nonpos]
        exact le_total a.name b.name⟩
    haveI htrans : IsTrans Task (fun a b => taskCompare "name" a b ≤ 0) :=
      ⟨fun a b c hab hbc => by
        rw [taskCompare_name, localeCompare_nonpos] at hab hbc ⊢
        exact le_trans hab hbc⟩
    have h := List.sorted_insertionSort
      (fun a b => taskCompare "name" a b ≤ 0)
      (filterTasks q "completed" l)
    exact h.imp (fun {a b} hab => by
      rw [taskCompare_name, localeCompare_nonpos] at hab
      exact hab)
  · intro statusFilter t
    unfold filterTasks
    rw [List.mem_filter]
    simp only [matchesStatus, Bool.and_eq_true, Bool.or_eq_true, beq_iff_eq]

/-- Witness for C6: on a concrete collection, the completed task named
`"a"` passes the `"completed"` filter with the empty search. -/
theorem filter_sort_completed_witness :
    (⟨"1", "a", .completed, .low, none, 0, 1, none, none, none, none⟩ : Task) ∈
      filterTasks "" "completed"
        [⟨"1", "a", .completed, .low, none, 0, 1, none, none, none, none⟩,
         ⟨"2", "c", .todo, .low, none, 0, 1, none, none, none, none⟩] := by
  have h := filter_sort_completed
    [⟨"1", "a", .completed, .low, none, 0, 1, none, none, none, none⟩,
     ⟨"2", "c", .todo, .low, none, 0, 1, none, none, none, none⟩] ""
  exact (h.2.2 "completed"
    ⟨"1", "a", .completed, .low, none, 0, 1, none, none, none, none⟩).mpr
    ⟨by simp, by decide, Or.inr rfl⟩

/-! ## The task drawer (`TaskDrawer.tsx`) -/

/-- The drawer's `formData` state, a `Partial<Task>` (every field
optional; the structure defaults are only a literal convenience). -/
structure FormData where
  name : Option String := none
  status : TaskStatus := .todo
  priority : Priority := .medium
  assignee : Option String := none
  startDate : Option Date := none
  endDate : Option Date := none
  description : Option String := none
  progress : Option Nat := none
  dependencies : Option (List String) := none
  parentId : Option String := none
deriving DecidableEq, Repr

/-- The `newErrors` record of `validateForm`: at most one message per
validated field. -/
structure FormErrors where
  name : Option String := none
  startDate : Option String := none
  endDate : Option String := none
deriving DecidableEq, Repr

/-- JS `String.prototype.trim`, as dropping whitespace from both ends
of the character list. -/
def jsTrim (s : String) : String :=
  String.mk (((s.data.dropWhile Char.isWhitespace).reverse.dropWhile
    Char.isWhitespace).reverse)

/-- The `endDate` slot of `newErrors`: "End date is required" when the
date is missing; otherwise, when both dates are present and
`startDate >= endDate`, "End date must be after start date" (the two
source `if`s are mutually exclusive, the second writes only when the
date is present). -/
def endDateError (f : FormData) : Option String :=
  match f.endDate with
  | none => some "End date is required"
  | some e =>
      match f.startDate with
      | some s =>
          if s ≥ e then some "End date must be after start date" else none
      | none => none

/-- `TaskDrawer/validateForm` (lines 66-87): `!formData.name?.trim()`
flags a missing or whitespace-only name; a missing start or end date is
flagged; `startDate >= endDate` flags the end date. -/
def validateForm (f : FormData) : FormErrors :=
  { name := if jsTrim (f.name.getD "") = "" then some "Task name is required"
            else none
    startDate := if f.startDate.isNone then some "Start date is required"
                 else none
    endDate := endDateError f }

/-- `Object.keys(newErrors).length === 0`. -/
def formIsValid (f : FormData) : Bool :=
  ((validateForm f).name.isNone && (validateForm f).startDate.isNone)
    && (validateForm f).endDate.isNone

/-- The `taskData` object built by `handleSave` — `Omit<Task, 'id'>`,
in the source's field order; `progress` is `formData.progress || 0`. -/
structure NewTask where
  name : String
  status : TaskStatus
  priority : Priority
  assignee : Option String
  startDate : Date
  endDate : Date
  description : Option String
  progress : Nat
  dependencies : Option (List String)
  parentId : Option String
deriving DecidableEq, Repr

/-- What `handleSave` commits: `onTaskUpdate({...task, ...taskData})`
for an existing task, `onTaskCreate(taskData)` for a new one. -/
inductive SaveAction where
  | update (task : Task)
  | create (taskData : NewTask)
deriving DecidableEq, Repr

/-- `TaskDrawer/handleSave` (lines 89-112): `none` when validation
fails (no callback fires), otherwise the committed action.  (The inner
`match` mirrors the source's `!` assertions on `name`, `startDate` and
`endDate`; its fallback is unreachable because validity forces all
three to be present.) -/
def handleSave (task : Option Task) (f : FormData) : Option SaveAction :=
  if formIsValid f then
    match f.name, f.startDate, f.endDate with
    | some n, some s, some e =>
        match task with
        | some t =>
            some (.update ⟨t.id, n, f.status, f.priority, f.assignee, s, e,
              some (f.progress.getD 0), f.dependencies, f.parentId,
              f.description⟩)
        | none =>
            some (.create ⟨n, f.status, f.priority, f.assignee, s, e,
              f.description, f.progress.getD 0, f.dependencies, f.parentId⟩)
    | _, _, _ => none
  else none

/-- The dates of a committed action. -/
def savedDates : SaveAction → Date × Date
  | .update t => (t.startDate, t.endDate)
  | .create d => (d.startDate, d.endDate)

/-- The drawer's validation passes exactly for a non-whitespace name,
both dates present, and `startDate` strictly before `endDate`. -/
theorem formIsValid_iff (f : FormData) :
    formIsValid f = true ↔
      (jsTrim (f.name.getD "") ≠ "" ∧
        ∃ s e, f.startDate = some s ∧ f.endDate = some e ∧ s < e) := by
  rcases hsd : f.startDate with _ | s <;> rcases hed : f.endDate with _ | e <;>
    by_cases htr : jsTrim (f.name.getD "") = "" <;>
      simp [formIsValid, validateForm, endDateError, hsd, hed, htr]

/-- C4 counterexample: a form whose name is non-empty, whose dates are
both present, and whose dates satisfy `startDate ≤ endDate` (they are
equal) is nonetheless blocked — no create/update callback fires — so
the claimed "if and only if" with the condition `startDate ≤ endDate`
fails. -/
theorem drawer_blocks_equal_dates :
    handleSave none
        { name := some "A", startDate := some 0, endDate := some 0 } = none
    ∧ jsTrim "A" ≠ "" ∧ ((0 : Date) ≤ (0 : Date)) := by
  decide

/-- C4 (amended): the drawer's save commits (invokes the create or
update callback) iff the form has a non-whitespace name, a start date,
an end date, and `startDate` is strictly before `endDate` — equality is
blocked with "End date must be after start date"; consequently every
committed task satisfies `startDate < endDate` (hence also
`startDate ≤ endDate`). -/
theorem drawer_save_commits_iff (task : Option Task) (f : FormData) :
    ((handleSave task f).isSome = true ↔
      (jsTrim (f.name.getD "") ≠ "" ∧
        ∃ s e, f.startDate = some s ∧ f.endDate = some e ∧ s < e))
    ∧ ∀ a, handleSave task f = some a →
        (savedDates a).1 < (savedDates a).2 := by
  have hname_of : jsTrim (f.name.getD "") ≠ "" → ∃ n, f.name = some n := by
    intro hn
    rcases hname : f.name with _ | n
    · exfalso
      apply hn
      rw [hname]
      rfl
    · exact ⟨n, rfl⟩
  constructor
  · rw [← formIsValid_iff]
    unfold handleSave
    by_cases hv : formIsValid f = true
    · obtain ⟨hn, s, e, hs, he, hlt⟩ := (formIsValid_iff f).mp hv
      obtain ⟨n, hnm⟩ := hname_of hn
      rw [if_pos hv, hnm, hs, he]
      cases task <;> simp [hv]
    · rw [if_neg hv]
      simp [hv]
  · intro a ha
    unfold handleSave at ha
    by_cases hv : formIsValid f = true
    · obtain ⟨hn, s, e, hs, he, hlt⟩ := (formIsValid_iff f).mp hv
      obtain ⟨n, hnm⟩ := hname_of hn
      rw [if_pos hv, hnm, hs, he] at ha
      cases task with
      | none =>
          have hae := Option.some.inj ha
          rw [← hae]
          exact hlt
      | some t =>
          have hae := Option.some.inj ha
          rw [← hae]
          exact hlt
    · rw [if_neg hv] at ha
      exact absurd ha (by simp)

/-- Witness for the amended C4: a form named `"A"` spanning `[0, 5]`
commits. -/
theorem drawer_save_commits_iff_witness :
    (handleSave none
        { name := some "A", startDate := some 0, endDate := some 5 }).isSome
      = true := by
  have h := drawer_save_commits_iff none
    { name := some "A", startDate := some 0, endDate := some 5 }
  exact h.1.mpr ⟨by decide, 0, 5, rfl, rfl, by decide⟩

end TimeScape
